import Mathlib

/-!
Verification of the Hyakunin Isshu quiz application (`app.py`).

The application is a Streamlit script.  Its quiz logic is a state machine
over `st.session_state`; we embed that state as the structure `QuizState`
and each interaction handler as a function on it:

* `initialize_quiz` embeds the function of the same name (lines 21-51);
* `ensure_options` embeds the option-generation block that runs on a
  render when no options are stored (lines 96-117), including the
  `ValueError` that `random.sample(pop, 3)` raises when the candidate
  pool has fewer than 3 elements (modelled as `QuizError.insufficientCorpus`);
* `submit_answer` embeds the submit handler (lines 213-223) together with
  its enclosing guards (`q_index < len(question_list)` and not answered);
* `advance` embeds the next-question handler (lines 202-208) together
  with its guards (`q_index < len(question_list)` and answered).

Randomness (`random.shuffle`, `random.sample`) is nondeterministic input:
the shuffled id list, the sampled decoys and the shuffled option list are
parameters, constrained in theorems by permutation / sub-permutation
hypotheses (`ValidSample`, `List.Perm`).
-/

/-- One record of `hyakunin_isshu.json`, with the fields `app.py` reads. -/
structure PoemRecord where
  id : Nat
  upper : String
  lower : String
  reading_upper : String
  reading_lower : String
  author : String
  description : String
deriving DecidableEq

/-- The keys of `st.session_state` used by the quiz.  Keys that may be
absent (`options`, `correct_answer`, `user_last_answer`, and `all_poems`
when loading failed) are `Option`s; `none` models an absent/`None` key. -/
structure QuizState where
  mode : String
  all_poems : Option (List PoemRecord)
  question_list : List Nat
  current_question_index : Nat
  score : Nat
  is_answered : Bool
  options : Option (List String)
  correct_answer : Option String
  user_last_answer : Option String
deriving DecidableEq

/-- A fresh Streamlit session: no quiz keys set yet. -/
def freshState : QuizState :=
  { mode := ""
    all_poems := none
    question_list := []
    current_question_index := 0
    score := 0
    is_answered := false
    options := none
    correct_answer := none
    user_last_answer := none }

/-- The mode string `"ランダム"` (random order). -/
def randomMode : String := "ランダム"

/-- The mode string `"ID順"` (sequential order by id). -/
def sequentialMode : String := "ID順"

/-- Errors the script can hit while preparing a question.
`insufficientCorpus` models the `ValueError` raised by
`random.sample(all_lowers, 3)` when `len(all_lowers) < 3`;
`poemNotFound` models the `TypeError` of subscripting the `None`
returned by `next(..., None)` when no poem has the requested id. -/
inductive QuizError where
  | insufficientCorpus
  | poemNotFound
deriving DecidableEq

/-- `initialize_quiz(mode)` (app.py lines 21-51).  `loaded` is the result
of the cached `load_data()` (`none` = file missing); `shuffled` is the
output of `random.shuffle(ids)` used in the `"ランダム"` branch.  Note the
code sets `mode` and `all_poems` BEFORE the `None` check, and deletes
`options` and `user_last_answer` but never `correct_answer`. -/
def initialize_quiz (mode : String) (loaded : Option (List PoemRecord))
    (shuffled : List Nat) (s : QuizState) : QuizState :=
  let s1 := { s with mode := mode, all_poems := loaded }
  match loaded with
  | none => s1
  | some poems =>
      let ids := poems.map (fun p => p.id)
      let qlist := if mode = randomMode then shuffled
                   else ids.mergeSort (fun a b => decide (a ≤ b))
      { s1 with
        question_list := qlist
        current_question_index := 0
        score := 0
        is_answered := false
        options := none
        user_last_answer := none }

/-- `next((p for p in all_poems if p["id"] == q_id), None)` (line 99). -/
def current_poem (poems : List PoemRecord) (q_id : Nat) : Option PoemRecord :=
  poems.find? (fun p => p.id == q_id)

/-- `[p["lower"] for p in all_poems if p["id"] != q_id]` (line 106). -/
def all_lowers (poems : List PoemRecord) (q_id : Nat) : List String :=
  (poems.filter (fun p => p.id != q_id)).map (fun p => p.lower)

/-- The id of the current question, `question_list[q_index]` (line 97);
total via `getD`, used only under the in-bounds guard of line 96. -/
def q_id_at (s : QuizState) : Nat :=
  s.question_list.getD s.current_question_index 0

/-- The option-generation block (lines 96-117): runs only when a question
remains (`q_index < len(question_list)`) and `"options"` is not in the
session state; otherwise the render leaves the state alone.  `wrong_options`
is the result of `random.sample(all_lowers, 3)` and `shuffled` the result
of shuffling `wrong_options + [correct_lower]`; both are nondeterministic
inputs, constrained by hypotheses in the theorems below. -/
def ensure_options (poems : List PoemRecord) (wrong_options shuffled : List String)
    (s : QuizState) : Except QuizError QuizState :=
  if s.current_question_index < s.question_list.length then
    match s.options with
    | some _ => Except.ok s
    | none =>
        match current_poem poems (q_id_at s) with
        | none => Except.error QuizError.poemNotFound
        | some poem =>
            if (all_lowers poems (q_id_at s)).length < 3 then
              Except.error QuizError.insufficientCorpus
            else
              Except.ok { s with
                options := some shuffled
                correct_answer := some poem.lower }
  else Except.ok s

/-- `random.sample(pool, 3)`: 3 draws without replacement, i.e. the result
is a length-3 sub-permutation of the pool (3 distinct positions, any order). -/
def ValidSample (pool sample : List String) : Prop :=
  sample.length = 3 ∧ sample.Subperm pool

instance (pool sample : List String) : Decidable (ValidSample pool sample) :=
  inferInstanceAs (Decidable (_ ∧ _))

/-- The submit handler (lines 213-223) with its enclosing guards: it runs
only when a question remains (line 96) and the session is not yet answered
(line 211).  Saves the choice, marks answered, and bumps the score iff the
choice equals the stored correct answer. -/
def submit_answer (choice : String) (s : QuizState) : QuizState :=
  if s.current_question_index < s.question_list.length ∧ s.is_answered = false then
    { s with
      user_last_answer := some choice
      is_answered := true
      score := if s.correct_answer = some choice then s.score + 1 else s.score }
  else s

/-- The next-question handler (lines 202-208) with its enclosing guards
(question remains, answered).  Increments the index, resets the answered
flag, deletes `options` and `user_last_answer` — and does NOT delete
`correct_answer`. -/
def advance (s : QuizState) : QuizState :=
  if s.current_question_index < s.question_list.length ∧ s.is_answered = true then
    { s with
      current_question_index := s.current_question_index + 1
      is_answered := false
      options := none
      user_last_answer := none }
  else s

/-- States reachable from a fresh session by the app's operations over a
fixed corpus `poems` (the cached `load_data()` result is the same on every
call: either always `some poems` or always `none`). -/
inductive Reachable (poems : List PoemRecord) : QuizState → Prop where
  | fresh : Reachable poems freshState
  | init {s : QuizState} (mode : String) (loaded : Option (List PoemRecord))
      (shuffled : List Nat) (hl : loaded = some poems ∨ loaded = none)
      (hs : Reachable poems s) : Reachable poems (initialize_quiz mode loaded shuffled s)
  | gen {s s' : QuizState} (w sh : List String) (hs : Reachable poems s)
      (heq : ensure_options poems w sh s = Except.ok s') : Reachable poems s'
  | submit {s : QuizState} (choice : String) (hs : Reachable poems s) :
      Reachable poems (submit_answer choice s)
  | adv {s : QuizState} (hs : Reachable poems s) : Reachable poems (advance s)

/-- A poem record with only `id`, `upper`, `lower` populated. -/
def mkPoem (i : Nat) (u l : String) : PoemRecord :=
  { id := i, upper := u, lower := l, reading_upper := "", reading_lower := ""
    author := "", description := "" }

/-- A 2-poem corpus (too small for option generation). -/
def corpus2 : List PoemRecord := [mkPoem 1 "u1" "a", mkPoem 2 "u2" "b"]

/-- A 4-poem corpus with pairwise-distinct lower halves. -/
def corpus4 : List PoemRecord :=
  [mkPoem 1 "u1" "a", mkPoem 2 "u2" "b", mkPoem 3 "u3" "c", mkPoem 4 "u4" "d"]

/-- A 5-poem corpus in which poems 1 and 5 share the lower half `"a"`
(4 distinct lower halves among 5 poems). -/
def corpus5 : List PoemRecord :=
  [mkPoem 1 "u1" "a", mkPoem 2 "u2" "b", mkPoem 3 "u3" "c", mkPoem 4 "u4" "d",
   mkPoem 5 "u5" "a"]

/-- Session right after `initialize_quiz("ランダム")` on `corpus2`
(shuffle drew `[2, 1]`). -/
def s2init : QuizState := initialize_quiz randomMode (some corpus2) [2, 1] freshState

/-- Session right after `initialize_quiz("ランダム")` on `corpus4`
(shuffle drew the identity order). -/
def s4init : QuizState := initialize_quiz randomMode (some corpus4) [1, 2, 3, 4] freshState

/-- `s4init` after option generation for question 0 (decoys `b,c,d`,
shuffle put the correct `"a"` last). -/
def s4opts : QuizState :=
  { s4init with options := some ["b", "c", "d", "a"], correct_answer := some "a" }

/-- `s4opts` after submitting the correct answer `"a"`. -/
def s4sub : QuizState := submit_answer "a" s4opts

/-- Session right after `initialize_quiz("ランダム")` on `corpus5`
(shuffle drew the identity order). -/
def s5init : QuizState := initialize_quiz randomMode (some corpus5) [1, 2, 3, 4, 5] freshState

/-- `s5init` after option generation for question 0 with the duplicate
lower `"a"` of poem 5 among the decoys. -/
def s5opts : QuizState :=
  { s5init with options := some ["b", "c", "a", "a"], correct_answer := some "a" }

/-- A successful option-generation pass leaves `score`, the index, the
answered flag and the question list untouched. -/
theorem ensure_options_ok_fields {poems : List PoemRecord} {w sh : List String}
    {s s' : QuizState} (h : ensure_options poems w sh s = Except.ok s') :
    s'.score = s.score ∧ s'.current_question_index = s.current_question_index ∧
      s'.is_answered = s.is_answered ∧ s'.question_list = s.question_list := by
  unfold ensure_options at h
  split at h
  · split at h
    · injection h with h2
      subst h2
      exact ⟨rfl, rfl, rfl, rfl⟩
    · split at h
      · simp at h
      · split at h
        · simp at h
        · injection h with h2
          subst h2
          exact ⟨rfl, rfl, rfl, rfl⟩
  · injection h with h2
    subst h2
    exact ⟨rfl, rfl, rfl, rfl⟩

/-- Option generation when a question remains, no options are stored, the
current poem is found and the candidate pool is large enough. -/
theorem ensure_options_ok (poems : List PoemRecord) (w sh : List String)
    (s : QuizState) (poem : PoemRecord)
    (hidx : s.current_question_index < s.question_list.length)
    (hnone : s.options = none)
    (hfind : current_poem poems (q_id_at s) = some poem)
    (hpool : 3 ≤ (all_lowers poems (q_id_at s)).length) :
    ensure_options poems w sh s =
      Except.ok { s with options := some sh, correct_answer := some poem.lower } := by
  have hlt : ¬ (all_lowers poems (q_id_at s)).length < 3 := by omega
  simp [ensure_options, hidx, hnone, hfind, hlt]

/-- Option generation fails with `insufficientCorpus` when the candidate
pool has fewer than 3 entries (the `ValueError` of `random.sample`). -/
theorem ensure_options_error (poems : List PoemRecord) (w sh : List String)
    (s : QuizState) (poem : PoemRecord)
    (hidx : s.current_question_index < s.question_list.length)
    (hnone : s.options = none)
    (hfind : current_poem poems (q_id_at s) = some poem)
    (hpool : (all_lowers poems (q_id_at s)).length < 3) :
    ensure_options poems w sh s = Except.error QuizError.insufficientCorpus := by
  simp [ensure_options, hidx, hnone, hfind, hpool]

/-- `initialize_quiz` on a loaded corpus makes `question_list` a
permutation of the corpus's id list, in both modes. -/
theorem initialize_perm (mode : String) (poems : List PoemRecord)
    (shuffled : List Nat) (s : QuizState)
    (hperm : shuffled.Perm (poems.map (fun p => p.id))) :
    (initialize_quiz mode (some poems) shuffled s).question_list.Perm
      (poems.map (fun p => p.id)) := by
  show (if mode = randomMode then shuffled
        else (poems.map (fun p => p.id)).mergeSort (fun a b => decide (a ≤ b))).Perm _
  split
  · exact hperm
  · exact List.mergeSort_perm _ _

/-- With unique ids, excluding the current poem shrinks the pool by
exactly one: `len(all_lowers) + 1 = len(all_poems)`. -/
theorem all_lowers_length_succ (poems : List PoemRecord) (q : Nat)
    (hids : (poems.map (fun p => p.id)).Nodup)
    (p0 : PoemRecord) (hp0 : p0 ∈ poems) (hid0 : p0.id = q) :
    (all_lowers poems q).length + 1 = poems.length := by
  induction poems with
  | nil => cases hp0
  | cons p ps ih =>
      simp only [List.map_cons, List.nodup_cons] at hids
      obtain ⟨hnotmem, hnodup⟩ := hids
      by_cases hpq : p.id = q
      · have hfix : ps.filter (fun x => x.id != q) = ps := by
          rw [List.filter_eq_self]
          intro x hx
          simp only [bne_iff_ne, ne_eq]
          intro hxq
          exact hnotmem (by
            rw [hpq, ← hxq]
            exact List.mem_map_of_mem (fun p => p.id) hx)
        simp [all_lowers, List.filter_cons, hpq, hfix]
      · have hp0ps : p0 ∈ ps := by
          rcases List.mem_cons.mp hp0 with h | h
          · exact absurd (h ▸ hid0) hpq
          · exact h
        have hrec := ih hnodup hp0ps
        have hcond : (p.id != q) = true := by simpa using hpq
        simp only [all_lowers, List.filter_cons] at hrec ⊢
        rw [hcond]
        simp only [if_true, List.map_cons, List.length_cons]
        omega

/-- With pairwise-distinct lower halves, the current poem's lower half is
not in the decoy candidate pool. -/
theorem lower_not_mem_pool (poems : List PoemRecord) (q : Nat) (poem : PoemRecord)
    (hlowers : (poems.map (fun p => p.lower)).Nodup)
    (hfind : current_poem poems q = some poem) :
    poem.lower ∉ all_lowers poems q := by
  intro hmem
  have hpoemmem : poem ∈ poems := List.mem_of_find?_eq_some hfind
  have hpoemid : poem.id = q := by simpa using List.find?_some hfind
  simp only [all_lowers, List.mem_map, List.mem_filter] at hmem
  obtain ⟨p', ⟨hp'mem, hp'id⟩, hp'low⟩ := hmem
  have hpp : p' = poem := List.inj_on_of_nodup_map hlowers hp'mem hpoemmem hp'low
  rw [hpp, hpoemid] at hp'id
  simp at hp'id

/-- With pairwise-distinct lower halves, the decoy candidate pool has no
duplicates. -/
theorem all_lowers_nodup (poems : List PoemRecord) (q : Nat)
    (hlowers : (poems.map (fun p => p.lower)).Nodup) :
    (all_lowers poems q).Nodup := by
  unfold all_lowers
  exact List.Nodup.sublist
    (List.Sublist.map (fun p => p.lower) (List.filter_sublist poems)) hlowers

/-- A sub-permutation of a duplicate-free list is duplicate-free. -/
theorem nodup_of_subperm {l₁ l₂ : List String} (h : l₁.Subperm l₂)
    (h2 : l₂.Nodup) : l₁.Nodup := by
  obtain ⟨l, hperm, hsub⟩ := h
  exact hperm.nodup_iff.mp (List.Nodup.sublist hsub h2)

/-- Base state for the C3 counterexample: an `"ID順"` session whose corpus
was loaded, about to be re-initialized while the corpus file is missing. -/
def c3base : QuizState :=
  { freshState with mode := sequentialMode, all_poems := some corpus4 }

/-- C3 (amended): when `initialize_quiz` runs after a failed corpus load it
returns early before touching the quiz fields — `question_list`, the index,
`score`, the answered flag, `options`, `correct_answer` and
`user_last_answer` are all left unchanged — but it has already overwritten
`mode` and `all_poems` before the failure check, so the failure is not
fully atomic. -/
theorem C3_failure_preserves_quiz_fields (mode : String) (shuffled : List Nat)
    (s : QuizState) :
    (initialize_quiz mode none shuffled s).question_list = s.question_list ∧
    (initialize_quiz mode none shuffled s).current_question_index
      = s.current_question_index ∧
    (initialize_quiz mode none shuffled s).score = s.score ∧
    (initialize_quiz mode none shuffled s).is_answered = s.is_answered ∧
    (initialize_quiz mode none shuffled s).options = s.options ∧
    (initialize_quiz mode none shuffled s).correct_answer = s.correct_answer ∧
    (initialize_quiz mode none shuffled s).user_last_answer = s.user_last_answer ∧
    (initialize_quiz mode none shuffled s).mode = mode ∧
    (initialize_quiz mode none shuffled s).all_poems = none :=
  ⟨rfl, rfl, rfl, rfl, rfl, rfl, rfl, rfl, rfl⟩

/-- C3 counterexample: a failing `initialize` is not atomic — it changes
the session's `mode` and `all_poems` even though the operation fails,
because `app.py` assigns them (lines 26-27) before the `None` check
(line 29). -/
theorem C3_counterexample :
    (initialize_quiz randomMode none [] c3base).mode ≠ c3base.mode ∧
    (initialize_quiz randomMode none [] c3base).all_poems ≠ c3base.all_poems := by
  decide

/-- C4 (amended): in the Answered phase with a question remaining,
`advance` increments the index, resets the phase to Unanswered, and clears
`currentOptions` and `lastUserAnswer`; it does NOT clear `correctAnswer`,
which keeps its old value until the next option generation overwrites
it. -/
theorem C4_advance_effect (s : QuizState)
    (hidx : s.current_question_index < s.question_list.length)
    (hans : s.is_answered = true) :
    (advance s).current_question_index = s.current_question_index + 1 ∧
    (advance s).is_answered = false ∧
    (advance s).options = none ∧
    (advance s).user_last_answer = none ∧
    (advance s).correct_answer = s.correct_answer := by
  simp [advance, hidx, hans]

/-- C4 witness: the amended effect of `advance`, evaluated on the concrete
answered state `s4sub`. -/
theorem C4_advance_effect_witness :
    (s4sub.current_question_index < s4sub.question_list.length ∧
      s4sub.is_answered = true) ∧
    ((advance s4sub).current_question_index = s4sub.current_question_index + 1 ∧
     (advance s4sub).is_answered = false ∧
     (advance s4sub).options = none ∧
     (advance s4sub).user_last_answer = none ∧
     (advance s4sub).correct_answer = s4sub.correct_answer) :=
  ⟨⟨by decide, by decide⟩, C4_advance_effect s4sub (by decide) (by decide)⟩

/-- C4 counterexample: `advance` on the answered state `s4sub` (whose
stored correct answer is `"a"`) leaves `correct_answer` set instead of
clearing it, refuting the claim that all three of `currentOptions`,
`correctAnswer`, `lastUserAnswer` are cleared. -/
theorem C4_counterexample :
    s4sub.is_answered = true ∧
    s4sub.current_question_index < s4sub.question_list.length ∧
    (advance s4sub).correct_answer = some "a" := by
  decide

/-- C6 (confirmed): in the Unanswered phase with a question remaining,
`submit_answer choice` records the choice as `lastUserAnswer`, moves the
phase to Answered, adds exactly 1 to `score` when the choice equals the
stored correct answer and leaves `score` unchanged otherwise; the index
does not move. -/
theorem C6_submit_effect (choice ca : String) (s : QuizState)
    (hidx : s.current_question_index < s.question_list.length)
    (hans : s.is_answered = false)
    (hca : s.correct_answer = some ca) :
    (submit_answer choice s).user_last_answer = some choice ∧
    (submit_answer choice s).is_answered = true ∧
    (submit_answer choice s).score =
      (if choice = ca then s.score + 1 else s.score) ∧
    (submit_answer choice s).current_question_index = s.current_question_index := by
  have hguard : s.current_question_index < s.question_list.length ∧
      s.is_answered = false := ⟨hidx, hans⟩
  unfold submit_answer
  rw [if_pos hguard, hca]
  refine ⟨rfl, rfl, ?_, rfl⟩
  show (if some ca = some choice then s.score + 1 else s.score)
      = if choice = ca then s.score + 1 else s.score
  simp only [Option.some.injEq]
  by_cases h : choice = ca
  · simp [h]
  · have h2 : ¬ ca = choice := fun hh => h hh.symm
    rw [if_neg h2, if_neg h]

/-- C6 witness: submitting the correct answer `"a"` on the concrete state
`s4opts` bumps the score by exactly one. -/
theorem C6_submit_effect_witness :
    (s4opts.current_question_index < s4opts.question_list.length ∧
      s4opts.is_answered = false ∧ s4opts.correct_answer = some "a") ∧
    ((submit_answer "a" s4opts).user_last_answer = some "a" ∧
     (submit_answer "a" s4opts).is_answered = true ∧
     (submit_answer "a" s4opts).score =
       (if "a" = "a" then s4opts.score + 1 else s4opts.score) ∧
     (submit_answer "a" s4opts).current_question_index
       = s4opts.current_question_index) :=
  ⟨⟨by decide, by decide, by decide⟩,
   C6_submit_effect "a" "a" s4opts (by decide) (by decide) (by decide)⟩

/-- C9 (confirmed): once options are stored for the current question, a
second option-generation pass is a no-op — the whole state, in particular
`options` and `correct_answer`, is returned unchanged, whatever fresh
decoys and shuffle the second pass would have drawn. -/
theorem C9_ensure_options_idempotent (poems : List PoemRecord)
    (w sh : List String) (s : QuizState) (opts : List String)
    (hopts : s.options = some opts) :
    ensure_options poems w sh s = Except.ok s := by
  unfold ensure_options
  split
  · rw [hopts]
  · rfl

/-- C9 witness: a second generation pass over `s4opts` with different
decoys and shuffle returns `s4opts` itself. -/
theorem C9_ensure_options_idempotent_witness :
    s4opts.options = some ["b", "c", "d", "a"] ∧
    ensure_options corpus4 ["x", "y", "z"] ["x", "y", "z", "w"] s4opts
      = Except.ok s4opts :=
  ⟨rfl, C9_ensure_options_idempotent corpus4 ["x", "y", "z"] ["x", "y", "z", "w"]
    s4opts ["b", "c", "d", "a"] rfl⟩

/-- C10 (confirmed): grading is plain string equality on the selected
option.  In `corpus5`, poem 5 shares poem 1's lower half `"a"`; that string
sits in the decoy pool for question 1, a valid `random.sample` draw can pick
it, and submitting `"a"` — whether read as the correct option or as the
duplicate decoy — bumps the score by exactly one. -/
theorem C10_grading_by_string_equality :
    mkPoem 1 "u1" "a" ∈ corpus5 ∧ mkPoem 5 "u5" "a" ∈ corpus5 ∧
    (mkPoem 5 "u5" "a").lower = (mkPoem 1 "u1" "a").lower ∧
    q_id_at s5init = 1 ∧
    "a" ∈ all_lowers corpus5 (q_id_at s5init) ∧
    ValidSample (all_lowers corpus5 (q_id_at s5init)) ["b", "c", "a"] ∧
    ensure_options corpus5 ["b", "c", "a"] ["b", "c", "a", "a"] s5init
      = Except.ok s5opts ∧
    s5opts.correct_answer = some "a" ∧
    (submit_answer "a" s5opts).score = s5opts.score + 1 :=
  ⟨by decide, by decide, rfl, rfl, by decide, by decide, rfl, rfl, rfl⟩

/-- C1 (amended): `initialize_quiz` performs no corpus-size validation and
succeeds on any loaded corpus; on a (non-empty, unique-id) corpus with
fewer than 4 poems the session is fully initialized, and the insufficiency
is first discovered during per-question option generation, where the
`random.sample` call fails. -/
theorem C1_insufficiency_found_at_option_generation (mode : String)
    (poems : List PoemRecord) (shuffled : List Nat) (w sh : List String)
    (s0 : QuizState)
    (hsmall : poems.length < 4) (hne : poems ≠ [])
    (hids : (poems.map (fun p => p.id)).Nodup)
    (hperm : shuffled.Perm (poems.map (fun p => p.id))) :
    (initialize_quiz mode (some poems) shuffled s0).question_list.length
      = poems.length ∧
    (initialize_quiz mode (some poems) shuffled s0).current_question_index = 0 ∧
    (initialize_quiz mode (some poems) shuffled s0).score = 0 ∧
    ensure_options poems w sh (initialize_quiz mode (some poems) shuffled s0)
      = Except.error QuizError.insufficientCorpus := by
  set s := initialize_quiz mode (some poems) shuffled s0 with hs
  have hqperm : s.question_list.Perm (poems.map (fun p => p.id)) := by
    rw [hs]
    exact initialize_perm mode poems shuffled s0 hperm
  have hlen : s.question_list.length = poems.length := by
    rw [hqperm.length_eq, List.length_map]
  have hidx0 : s.current_question_index = 0 := by rw [hs]; rfl
  have hidx : s.current_question_index < s.question_list.length := by
    rw [hidx0, hlen]
    exact List.length_pos.mpr hne
  have hqmem : q_id_at s ∈ poems.map (fun p => p.id) := by
    have hmem : q_id_at s ∈ s.question_list := by
      unfold q_id_at
      rw [List.getD_eq_getElem _ _ hidx]
      exact List.getElem_mem _
    exact hqperm.mem_iff.mp hmem
  obtain ⟨p0, hp0mem, hp0id⟩ := List.mem_map.mp hqmem
  have hfindsome : (current_poem poems (q_id_at s)).isSome := by
    unfold current_poem
    rw [List.find?_isSome]
    exact ⟨p0, hp0mem, by simp [hp0id]⟩
  obtain ⟨poem, hfind⟩ := Option.isSome_iff_exists.mp hfindsome
  have hpool : (all_lowers poems (q_id_at s)).length < 3 := by
    have hsucc := all_lowers_length_succ poems (q_id_at s) hids p0 hp0mem hp0id
    omega
  have hnone : s.options = none := by rw [hs]; rfl
  exact ⟨hlen, hidx0, by rw [hs]; rfl,
    ensure_options_error poems w sh s poem hidx hnone hfind hpool⟩

/-- C1 witness: the amended behaviour on the concrete 2-poem corpus
`corpus2` (random mode, shuffle drew `[2, 1]`). -/
theorem C1_insufficiency_found_at_option_generation_witness :
    (corpus2.length < 4 ∧ corpus2 ≠ [] ∧
      (corpus2.map (fun p => p.id)).Nodup ∧
      ([2, 1] : List Nat).Perm (corpus2.map (fun p => p.id))) ∧
    ((initialize_quiz randomMode (some corpus2) [2, 1] freshState).question_list.length
        = corpus2.length ∧
      (initialize_quiz randomMode (some corpus2) [2, 1] freshState).current_question_index
        = 0 ∧
      (initialize_quiz randomMode (some corpus2) [2, 1] freshState).score = 0 ∧
      ensure_options corpus2 [] []
          (initialize_quiz randomMode (some corpus2) [2, 1] freshState)
        = Except.error QuizError.insufficientCorpus) :=
  ⟨⟨by decide, by decide, by decide, by decide⟩,
   C1_insufficiency_found_at_option_generation randomMode corpus2 [2, 1] [] []
     freshState (by decide) (by decide) (by decide) (by decide)⟩

/-- C1 counterexample: on the 2-poem corpus `corpus2`, `initialize_quiz`
does not fail — it builds the full question list and resets the session —
and the insufficient-corpus error is first raised by the per-question
option generation, refuting the claim that the failure surfaces at
initialize time and never during option generation. -/
theorem C1_counterexample :
    s2init.question_list = [2, 1] ∧
    s2init.current_question_index = 0 ∧
    s2init.score = 0 ∧
    s2init.is_answered = false ∧
    ensure_options corpus2 [] [] s2init
      = Except.error QuizError.insufficientCorpus :=
  ⟨rfl, rfl, rfl, rfl, rfl⟩

/-- C8 (confirmed): after `initialize_quiz` on a loaded corpus with unique
ids, `question_list` is a permutation of exactly the corpus's id list (no
duplicates, no omissions), and in `"ID順"` (sequential) mode it is sorted
strictly ascending. -/
theorem C8_order_is_permutation (mode : String) (poems : List PoemRecord)
    (shuffled : List Nat) (s : QuizState)
    (hne : poems ≠ [])
    (hids : (poems.map (fun p => p.id)).Nodup)
    (hperm : shuffled.Perm (poems.map (fun p => p.id))) :
    (initialize_quiz mode (some poems) shuffled s).question_list.Perm
        (poems.map (fun p => p.id)) ∧
      (mode = sequentialMode →
        (initialize_quiz mode (some poems) shuffled s).question_list.Sorted
          (· < ·)) := by
  have hne0 : poems.length ≠ 0 := fun h => hne (List.length_eq_zero.mp h)
  refine ⟨initialize_perm mode poems shuffled s hperm, ?_⟩
  intro hmode
  have hner : ¬ mode = randomMode := by
    rw [hmode]
    decide
  have hql : (initialize_quiz mode (some poems) shuffled s).question_list
      = (poems.map (fun p => p.id)).mergeSort (fun a b => decide (a ≤ b)) := by
    show (if mode = randomMode then shuffled else _) = _
    rw [if_neg hner]
  rw [hql]
  have hsorted := List.sorted_mergeSort' (poems.map (fun p => p.id))
  have hnodup :
      ((poems.map (fun p => p.id)).mergeSort (fun a b => decide (a ≤ b))).Nodup :=
    (List.mergeSort_perm _ _).nodup_iff.mpr hids
  exact hsorted.lt_of_le hnodup

/-- C8 witness: sequential initialization over `corpus4` from the shuffled
candidate `[4, 3, 2, 1]` — the resulting order is a permutation of the ids
and strictly ascending. -/
theorem C8_order_is_permutation_witness :
    (corpus4 ≠ [] ∧ (corpus4.map (fun p => p.id)).Nodup ∧
      ([4, 3, 2, 1] : List Nat).Perm (corpus4.map (fun p => p.id))) ∧
    ((initialize_quiz sequentialMode (some corpus4) [4, 3, 2, 1]
        freshState).question_list.Perm (corpus4.map (fun p => p.id)) ∧
      (sequentialMode = sequentialMode →
        (initialize_quiz sequentialMode (some corpus4) [4, 3, 2, 1]
          freshState).question_list.Sorted (· < ·))) :=
  ⟨⟨by decide, by decide, by decide⟩,
   C8_order_is_permutation sequentialMode corpus4 [4, 3, 2, 1] freshState
     (by decide) (by decide) (by decide)⟩

/-- C7 (confirmed): for a unique-id corpus of size ≥ 4, option generation
for an in-range question succeeds, stores a 4-element option list
containing the correct answer, and the stored correct answer is the
`lower` field of the poem record whose id is `order[index]`. -/
theorem C7_options_contain_correct (poems : List PoemRecord)
    (w sh : List String) (s : QuizState) (poem : PoemRecord)
    (hids : (poems.map (fun p => p.id)).Nodup)
    (hsize : 4 ≤ poems.length)
    (hidx : s.current_question_index < s.question_list.length)
    (hnone : s.options = none)
    (hfind : current_poem poems (q_id_at s) = some poem)
    (hw : ValidSample (all_lowers poems (q_id_at s)) w)
    (hsh : sh.Perm (w ++ [poem.lower])) :
    ensure_options poems w sh s =
      Except.ok { s with options := some sh, correct_answer := some poem.lower } ∧
    sh.length = 4 ∧ poem.lower ∈ sh ∧ poem.id = q_id_at s := by
  have hpmem : poem ∈ poems := List.mem_of_find?_eq_some hfind
  have hpid : poem.id = q_id_at s := by simpa using List.find?_some hfind
  have hpool3 : 3 ≤ (all_lowers poems (q_id_at s)).length := by
    have hsucc := all_lowers_length_succ poems (q_id_at s) hids poem hpmem hpid
    omega
  refine ⟨ensure_options_ok poems w sh s poem hidx hnone hfind hpool3, ?_, ?_, hpid⟩
  · rw [hsh.length_eq, List.length_append, hw.1]
    rfl
  · rw [hsh.mem_iff]
    exact List.mem_append_right w (List.mem_singleton_self _)

/-- C7 witness: option generation on `s4init` (corpus `corpus4`,
question id 1) with decoys `b, c, d` and shuffle result
`["b", "c", "d", "a"]`. -/
theorem C7_options_contain_correct_witness :
    ((corpus4.map (fun p => p.id)).Nodup ∧ 4 ≤ corpus4.length ∧
      s4init.current_question_index < s4init.question_list.length ∧
      s4init.options = none ∧
      current_poem corpus4 (q_id_at s4init) = some (mkPoem 1 "u1" "a") ∧
      ValidSample (all_lowers corpus4 (q_id_at s4init)) ["b", "c", "d"] ∧
      (["b", "c", "d", "a"] : List String).Perm
        (["b", "c", "d"] ++ [(mkPoem 1 "u1" "a").lower])) ∧
    (ensure_options corpus4 ["b", "c", "d"] ["b", "c", "d", "a"] s4init =
        Except.ok { s4init with
          options := some ["b", "c", "d", "a"]
          correct_answer := some (mkPoem 1 "u1" "a").lower } ∧
      (["b", "c", "d", "a"] : List String).length = 4 ∧
      (mkPoem 1 "u1" "a").lower ∈ (["b", "c", "d", "a"] : List String) ∧
      (mkPoem 1 "u1" "a").id = q_id_at s4init) :=
  ⟨⟨by decide, by decide, by decide, by decide, by decide, by decide, by decide⟩,
   C7_options_contain_correct corpus4 ["b", "c", "d"] ["b", "c", "d", "a"] s4init
     (mkPoem 1 "u1" "a") (by decide) (by decide) (by decide) (by decide)
     (by decide) (by decide) (by decide)⟩

/-- C5 (amended): if all lower halves of the corpus are pairwise distinct
(not merely "at least 4 distinct"), the 4 generated options are pairwise
distinct for every valid sample and shuffle; with duplicate lower halves
among the other poems this can fail even when the corpus has 4 distinct
lower-half strings — see the counterexample. -/
theorem C5_options_pairwise_distinct (poems : List PoemRecord)
    (w sh : List String) (s : QuizState) (poem : PoemRecord)
    (hids : (poems.map (fun p => p.id)).Nodup)
    (hlowers : (poems.map (fun p => p.lower)).Nodup)
    (hsize : 4 ≤ poems.length)
    (hidx : s.current_question_index < s.question_list.length)
    (hnone : s.options = none)
    (hfind : current_poem poems (q_id_at s) = some poem)
    (hw : ValidSample (all_lowers poems (q_id_at s)) w)
    (hsh : sh.Perm (w ++ [poem.lower])) :
    ensure_options poems w sh s =
      Except.ok { s with options := some sh, correct_answer := some poem.lower } ∧
    sh.Nodup := by
  have hpmem : poem ∈ poems := List.mem_of_find?_eq_some hfind
  have hpid : poem.id = q_id_at s := by simpa using List.find?_some hfind
  have hpool3 : 3 ≤ (all_lowers poems (q_id_at s)).length := by
    have hsucc := all_lowers_length_succ poems (q_id_at s) hids poem hpmem hpid
    omega
  refine ⟨ensure_options_ok poems w sh s poem hidx hnone hfind hpool3, ?_⟩
  have hpoolnd : (all_lowers poems (q_id_at s)).Nodup :=
    all_lowers_nodup poems _ hlowers
  have hwnd : w.Nodup := nodup_of_subperm hw.2 hpoolnd
  have hnot : poem.lower ∉ w := fun hmem =>
    lower_not_mem_pool poems (q_id_at s) poem hlowers hfind (hw.2.subset hmem)
  have happ : (w ++ [poem.lower]).Nodup := by
    rw [List.nodup_append]
    refine ⟨hwnd, List.nodup_singleton _, ?_⟩
    intro a ha hb
    rw [List.mem_singleton] at hb
    exact hnot (hb ▸ ha)
  exact hsh.nodup_iff.mpr happ

/-- C5 witness: on `corpus4` (all four lower halves distinct), the options
generated for question 1 are pairwise distinct. -/
theorem C5_options_pairwise_distinct_witness :
    ((corpus4.map (fun p => p.id)).Nodup ∧
      (corpus4.map (fun p => p.lower)).Nodup ∧ 4 ≤ corpus4.length ∧
      s4init.current_question_index < s4init.question_list.length ∧
      s4init.options = none ∧
      current_poem corpus4 (q_id_at s4init) = some (mkPoem 1 "u1" "a") ∧
      ValidSample (all_lowers corpus4 (q_id_at s4init)) ["b", "c", "d"] ∧
      (["b", "c", "d", "a"] : List String).Perm
        (["b", "c", "d"] ++ [(mkPoem 1 "u1" "a").lower])) ∧
    (ensure_options corpus4 ["b", "c", "d"] ["b", "c", "d", "a"] s4init =
        Except.ok { s4init with
          options := some ["b", "c", "d", "a"]
          correct_answer := some (mkPoem 1 "u1" "a").lower } ∧
      (["b", "c", "d", "a"] : List String).Nodup) :=
  ⟨⟨by decide, by decide, by decide, by decide, by decide, by decide, by decide,
    by decide⟩,
   C5_options_pairwise_distinct corpus4 ["b", "c", "d"] ["b", "c", "d", "a"]
     s4init (mkPoem 1 "u1" "a") (by decide) (by decide) (by decide) (by decide)
     (by decide) (by decide) (by decide) (by decide)⟩

/-- C5 counterexample: `corpus5` has exactly 4 distinct lower-half strings,
yet a valid `random.sample` draw over question 1's candidate pool picks the
duplicate `"a"` (poem 5's lower half, equal to poem 1's correct answer), and
the generated 4 options `["b", "c", "a", "a"]` are not pairwise distinct. -/
theorem C5_counterexample :
    ((corpus5.map (fun p => p.lower)).dedup).length = 4 ∧
    ValidSample (all_lowers corpus5 (q_id_at s5init)) ["b", "c", "a"] ∧
    (["b", "c", "a", "a"] : List String).Perm
      (["b", "c", "a"] ++ [(mkPoem 1 "u1" "a").lower]) ∧
    ensure_options corpus5 ["b", "c", "a"] ["b", "c", "a", "a"] s5init
      = Except.ok s5opts ∧
    s5opts.options = some ["b", "c", "a", "a"] ∧
    ¬ (["b", "c", "a", "a"] : List String).Nodup :=
  ⟨by decide, by decide, by decide, rfl, rfl, by decide⟩

/-- C2 (amended): in every state reachable by any sequence of the app's
operations from a fresh session, `score ≤ index + 1` while the current
question is answered and `score ≤ index` otherwise (`0 ≤ score` holds
trivially for a natural number).  The claimed bound `score ≤ index` in all
states fails right after a correct answer — see the counterexample. -/
theorem C2_score_bound (poems : List PoemRecord) (s : QuizState)
    (h : Reachable poems s) :
    s.score ≤ s.current_question_index + (if s.is_answered = true then 1 else 0) := by
  induction h with
  | fresh => decide
  | init mode loaded shuffled hl hs ih =>
      cases loaded with
      | none => simpa [initialize_quiz] using ih
      | some poems2 => simp [initialize_quiz]
  | gen w sh hs heq ih =>
      obtain ⟨h1, h2, h3, _⟩ := ensure_options_ok_fields heq
      rw [h1, h2, h3]
      exact ih
  | submit choice hs ih =>
      rename_i s2
      unfold submit_answer
      split
      · rename_i hguard
        have ih2 : s2.score ≤ s2.current_question_index := by
          simpa [hguard.2] using ih
        show (if s2.correct_answer = some choice then s2.score + 1 else s2.score)
            ≤ s2.current_question_index + (if (true : Bool) = true then 1 else 0)
        split
        · simp
          omega
        · simp
          omega
      · exact ih
  | adv hs ih =>
      rename_i s2
      unfold advance
      split
      · rename_i hguard
        have ih2 : s2.score ≤ s2.current_question_index + 1 := by
          simpa [hguard.2] using ih
        show s2.score ≤ s2.current_question_index + 1 +
          (if (false : Bool) = true then 1 else 0)
        simpa using ih2
      · exact ih

/-- C2 witness: the amended bound, evaluated at the concrete reachable
answered state `s4sub` (score 1, index 0, answered). -/
theorem C2_score_bound_witness :
    s4sub.score ≤ s4sub.current_question_index +
      (if s4sub.is_answered = true then 1 else 0) :=
  C2_score_bound corpus4 s4sub
    (Reachable.submit "a"
      (Reachable.gen ["b", "c", "d"] ["b", "c", "d", "a"]
        (Reachable.init randomMode (some corpus4) [1, 2, 3, 4]
          (Or.inl rfl) Reachable.fresh)
        rfl))

/-- C2 counterexample: initializing on `corpus4`, generating options for
question 0 and answering it correctly reaches a state with `score = 1` but
`index = 0`: the claimed invariant `0 ≤ score ≤ index` is violated while
the answer is displayed. -/
theorem C2_counterexample :
    Reachable corpus4 s4sub ∧ s4sub.score = 1 ∧
      s4sub.current_question_index = 0 ∧
      ¬ s4sub.score ≤ s4sub.current_question_index :=
  ⟨Reachable.submit "a"
      (Reachable.gen ["b", "c", "d"] ["b", "c", "d", "a"]
        (Reachable.init randomMode (some corpus4) [1, 2, 3, 4]
          (Or.inl rfl) Reachable.fresh)
        rfl),
    rfl, rfl, by decide⟩
